import Mathlib

/-!
Verification of the laendlefinder incremental crawl scheduler and
record-reconciliation engine.

The definitions below are a shallow embedding of the Rust sources:

* `src/models.rs` — the `PropertyType` / `ListingType` enums and the persisted
  `Property` record with its custom CSV (de)serialization;
* `src/common_scraper.rs` — the snapshot/entry merge performed both in
  `scrape_single_url` and in `deduplicate_properties_by_url`, and the
  refresh-by-age frontier selection of `run_scraper_with_options`;
* `src/utils.rs` — `sanitize_url` and the row loop of
  `load_properties_from_csv`.

Dates (chrono `NaiveDate`) are embedded as integers counting days, which
preserves their total order and day arithmetic.  Coordinate payloads (Rust
`f64` pairs) are embedded as rational pairs: the verified code paths never
compute with the numbers, they only move them around whole, so only
decidable equality of payloads is needed.
-/

namespace Laendle

/-- Property classification, from the enum PropertyType in src/models.rs. -/
inductive PropertyType where
  | Apartment
  | House
  | Land
  | Unknown
deriving DecidableEq

/-- Listing status.  The snapshot of src/models.rs declares `Available` and
`Sold`; src/common_scraper.rs (the reconciliation code) additionally matches
on `ListingType::Unavailable`, and the spec lists all three, so the variant
declaration is completed from those uses. -/
inductive ListingType where
  | Available
  | Sold
  | Unavailable
deriving DecidableEq

/-- Calendar dates as day numbers (chrono NaiveDate is totally ordered and
subtracting a Duration of d days is subtraction of d). -/
abbrev Date := Int

/-- Coordinate payload: a lat/lng pair.  Rust stores `(f64, f64)`; the
verified code never computes with the numbers, so they are embedded as
rationals. -/
abbrev Coord := Rat × Rat

/-- The catalog entry record as used by src/common_scraper.rs: the field set
of the struct Property in src/models.rs together with the fields `name`,
`first_seen` and `last_seen` that src/common_scraper.rs reads and writes
(the models.rs snapshot predates them; the spec lists them as part of
CatalogEntry). -/
structure Property where
  url : String
  name : String
  price : String
  location : String
  property_type : PropertyType
  listing_type : ListingType
  date : Option Date
  coordinates : Option Coord
  address : Option String
  size_living : Option String
  size_ground : Option String
  first_seen : Option Date
  last_seen : Option Date
deriving DecidableEq

/-- Merge of a fresh snapshot `property` into an existing catalog entry
`existing`, exactly as written (twice, with identical text) in
src/common_scraper.rs: in `scrape_single_url` (lines 83-122) and in
`deduplicate_properties_by_url` (lines 414-453).  The first branch is the
disappearance transition, the second the normal update. -/
def merge_properties (existing property : Property) : Property :=
  if property.listing_type = ListingType.Unavailable ∧
      existing.listing_type ≠ ListingType.Unavailable then
    { url := property.url
      name := if existing.name ≠ "Unknown Property" ∧ existing.name ≠ "Unavailable Property"
              then existing.name else property.name
      price := existing.price
      location := if existing.location ≠ "Unknown" then existing.location else property.location
      property_type := if existing.property_type ≠ PropertyType.Unknown
                       then existing.property_type else property.property_type
      listing_type := property.listing_type
      date := existing.date.or property.date
      coordinates := existing.coordinates.or property.coordinates
      address := existing.address.or property.address
      size_living := existing.size_living.or property.size_living
      size_ground := existing.size_ground.or property.size_ground
      first_seen := existing.first_seen.or property.first_seen
      last_seen := existing.last_seen.or property.last_seen }
  else
    { url := property.url
      name := if property.name = "" ∨ property.name = "Unknown Property" ∨
                 property.name = "Unavailable Property"
              then existing.name else property.name
      price := if property.price = "" ∨ property.price = "Unknown" ∨
                  property.price = "Unavailable"
               then existing.price else property.price
      location := if property.location = "" ∨ property.location = "Unknown"
                  then existing.location else property.location
      property_type := if property.property_type = PropertyType.Unknown
                       then existing.property_type else property.property_type
      listing_type := property.listing_type
      date := property.date.or existing.date
      coordinates := property.coordinates.or existing.coordinates
      address := property.address.or existing.address
      size_living := property.size_living.or existing.size_living
      size_ground := property.size_ground.or existing.size_ground
      first_seen := existing.first_seen.or property.first_seen
      last_seen := property.last_seen.or existing.last_seen }

/-- Replace the first entry of `result` whose url equals `property.url` by the
merge of that entry with `property`; this is
`result.iter().position(|p| p.url == property.url)` followed by the in-place
assignment `result[existing_pos] = merged_property` in
`deduplicate_properties_by_url` (src/common_scraper.rs lines 412-455). -/
def merge_into : List Property → Property → List Property
  | [], _ => []
  | q :: rest, property =>
    if q.url = property.url then merge_properties q property :: rest
    else q :: merge_into rest property

/-- The loop of `deduplicate_properties_by_url` (src/common_scraper.rs lines
401-461).  The Rust code keeps a `seen_urls` hash set next to `result`; the
two are inserted into together, so the set always holds exactly the urls of
`result` and membership is tested on `result` directly here. -/
def dedup_go (result : List Property) : List Property → List Property
  | [] => result
  | property :: rest =>
    if ∀ q ∈ result, q.url ≠ property.url then
      dedup_go (result ++ [property]) rest
    else
      dedup_go (merge_into result property) rest

/-- Deduplicate properties by URL, merging duplicates in encounter order,
preserving the position of first occurrence (src/common_scraper.rs lines
401-461). -/
def deduplicate_properties_by_url (properties : List Property) : List Property :=
  dedup_go [] properties

/-- Strip everything from the first question mark, then everything from the
first hash sign, of what remains: `url.split(sep).next()` in Rust is the part
of the string before the first occurrence of `sep` (the whole string when
`sep` does not occur).  This is `sanitize_url` of src/utils.rs lines 13-18. -/
def sanitize_chars (l : List Char) : List Char :=
  ((l.takeWhile fun c => c ≠ '?').takeWhile fun c => c ≠ '#')

/-- Sanitize URL by removing query parameters and fragments
(src/utils.rs `sanitize_url`). -/
def sanitize_url (url : String) : String :=
  (sanitize_chars url.toList).asString

/-- The row loop of `load_properties_from_csv` (src/utils.rs lines 219-225),
after CSV decoding: every successfully decoded row is kept, in order, with
its url sanitized; the loop neither drops nor collapses rows. -/
def load_properties_from_csv (rows : List Property) : List Property :=
  rows.map fun property => { property with url := sanitize_url property.url }

/-- Test whether `needle` occurs at the start of a character list. -/
def chars_start_with : List Char → List Char → Bool
  | [], _ => true
  | _ :: _, [] => false
  | a :: as, b :: bs => a == b && chars_start_with as bs

/-- Test whether `needle` occurs contiguously anywhere in the second list. -/
def chars_contain (needle : List Char) : List Char → Bool
  | [] => needle.isEmpty
  | c :: cs => chars_start_with needle (c :: cs) || chars_contain needle cs

/-- Substring containment on strings: Rust `str::contains` with a string
pattern, as used in `x.url.contains(scraper.base_url())`. -/
def str_contains_sub (haystack needle : String) : Bool :=
  chars_contain needle.toList haystack.toList

/-- The refresh-mode filter of `run_scraper_with_options`
(src/common_scraper.rs lines 191-208): keep entries of this origin that are
Available and whose `last_seen` is unset or not after the cutoff date. -/
def refresh_keep (base_url : String) (cutoff_date : Date) (x : Property) : Bool :=
  str_contains_sub x.url base_url &&
  x.listing_type = ListingType.Available &&
  (match x.last_seen with
   | none => true
   | some last_seen => last_seen ≤ cutoff_date)

/-- Rust's derived `Option::cmp` on optional dates (`None` sorts before
`Some`), read as a non-strict order (cmp not Greater). -/
def option_date_le : Option Date → Option Date → Bool
  | none, _ => true
  | some _, none => false
  | some a, some b => a ≤ b

/-- The comparator of `relevant_properties.sort_by` in refresh mode
(src/common_scraper.rs lines 217-224), read as a non-strict order
(comparator result not Greater): entries without a listing date come first,
among themselves ordered by `first_seen`; dated entries are ordered by date,
oldest first. -/
def refresh_le (a b : Property) : Bool :=
  match a.date, b.date with
  | some a_date, some b_date => a_date ≤ b_date
  | none, some _ => true
  | some _, none => false
  | none, none => option_date_le a.first_seen b.first_seen

/-- The refresh-by-age frontier of `run_scraper_with_options`
(src/common_scraper.rs lines 186-234), as the list of selected catalog
entries before projecting to urls: clamp the threshold to at least one day,
take the cutoff that many days before today, filter, and stable-sort by the
refresh comparator (Rust `sort_by` and `List.mergeSort` are both stable). -/
def refresh_candidates (base_url : String) (today : Date) (refresh_days : Nat)
    (all_properties : List Property) : List Property :=
  (all_properties.filter
      (refresh_keep base_url (today - (max refresh_days 1 : Nat)))).mergeSort refresh_le

/-- The prioritized url list of refresh mode: the selected entries projected
to their urls (src/common_scraper.rs lines 226-229). -/
def refresh_urls (base_url : String) (today : Date) (refresh_days : Nat)
    (all_properties : List Property) : List String :=
  (refresh_candidates base_url today refresh_days all_properties).map Property.url

/-- The CSV row helper of the custom `Property::deserialize`
(src/models.rs lines 180-192): the decoded columns with `coordinates` still a
raw string. -/
structure PropertyHelper where
  url : String
  price : String
  location : String
  property_type : PropertyType
  listing_type : ListingType
  date : Option Date
  coordinates : String
  address : Option String
  size_living : Option String
  size_ground : Option String
deriving DecidableEq

/-- The record produced by `Property::deserialize`: the struct Property of
src/models.rs (which has no name/first_seen/last_seen fields). -/
structure PropertyRow where
  url : String
  price : String
  location : String
  property_type : PropertyType
  listing_type : ListingType
  date : Option Date
  coordinates : Option Coord
  address : Option String
  size_living : Option String
  size_ground : Option String
deriving DecidableEq

/-- Split a character list at every occurrence of `sep`, keeping empty
pieces: Rust `str::split(sep).collect()` (the empty string yields one empty
piece). -/
def split_chars (sep : Char) : List Char → List (List Char)
  | [] => [[]]
  | c :: cs =>
    if c = sep then [] :: split_chars sep cs
    else
      match split_chars sep cs with
      | [] => [[c]]
      | piece :: pieces => (c :: piece) :: pieces

/-- Rust `coordinates.split(',').collect::<Vec<&str>>()` on strings. -/
def split_on_comma (coordinates : String) : List String :=
  (split_chars ',' coordinates.toList).map List.asString

/-- Coordinate decoding of `Property::deserialize` (src/models.rs lines
196-209), parameterized by the numeric parser `parse_f64`
(Rust `str::parse::<f64>`), which is abstracted because only its success or
failure is inspected: empty string is absent; otherwise split on commas and
accept exactly two parts that both parse. -/
def parse_coordinates (parse_f64 : String → Option Rat) (coordinates : String) :
    Option Coord :=
  if coordinates = "" then none
  else
    match split_on_comma coordinates with
    | [part0, part1] =>
      match parse_f64 part0, parse_f64 part1 with
      | some lat, some lng => some (lat, lng)
      | _, _ => none
    | _ => none

/-- The body of `Property::deserialize` (src/models.rs lines 194-223) after
the helper row has been decoded: it always succeeds, rebuilding the record
with the coordinates string parsed leniently. -/
def property_deserialize (parse_f64 : String → Option Rat) (helper : PropertyHelper) :
    Except String PropertyRow :=
  Except.ok
    { url := helper.url
      price := helper.price
      location := helper.location
      property_type := helper.property_type
      listing_type := helper.listing_type
      date := helper.date
      coordinates := parse_coordinates parse_f64 helper.coordinates
      address := helper.address
      size_living := helper.size_living
      size_ground := helper.size_ground }

/-! Shared helper lemmas. -/

/-- Sanitizing a character list twice equals sanitizing it once: the output
contains neither a question mark nor a hash sign, so both takeWhile passes
keep all of it. -/
theorem sanitize_chars_idem (l : List Char) :
    sanitize_chars (sanitize_chars l) = sanitize_chars l := by
  have hmem : ∀ x ∈ sanitize_chars l, x ≠ '?' ∧ x ≠ '#' := by
    intro x hx
    unfold sanitize_chars at hx
    have h1 := (List.takeWhile_sublist (fun c : Char => c ≠ '#')).subset hx
    refine ⟨?_, ?_⟩
    · simpa using List.mem_takeWhile_imp h1
    · simpa using List.mem_takeWhile_imp hx
  have hq : List.takeWhile (fun c => c ≠ '?') (sanitize_chars l) = sanitize_chars l := by
    rw [List.takeWhile_eq_self_iff]
    intro x hx
    simpa using (hmem x hx).1
  have hh : List.takeWhile (fun c => c ≠ '#') (sanitize_chars l) = sanitize_chars l := by
    rw [List.takeWhile_eq_self_iff]
    intro x hx
    simpa using (hmem x hx).2
  show List.takeWhile (fun c => c ≠ '#')
      (List.takeWhile (fun c => c ≠ '?') (sanitize_chars l)) = sanitize_chars l
  rw [hq, hh]

/-- URL sanitization is idempotent. -/
theorem sanitize_url_idem (u : String) :
    sanitize_url (sanitize_url u) = sanitize_url u := by
  unfold sanitize_url
  rw [List.toList_asString, sanitize_chars_idem]

/-- A fully populated sample catalog entry used to build concrete inputs. -/
def sample_entry : Property :=
  { url := "https://site/a"
    name := "Nice House"
    price := "300000"
    location := "Bregenz"
    property_type := PropertyType.House
    listing_type := ListingType.Available
    date := some 10
    coordinates := none
    address := some "Main St 1"
    size_living := some "120"
    size_ground := some "500"
    first_seen := some 100
    last_seen := some 200 }

/-! Claim C9. -/

/-- Claim C9: URL canonicalization is idempotent — for every string u,
sanitize_url (sanitize_url u) = sanitize_url u — and strips everything from
the first question mark or hash sign onward; in particular it maps
"https://x/y?a=1#b" to "https://x/y". -/
theorem C9_sanitize_url_idempotent_and_strips :
    (∀ u : String, sanitize_url (sanitize_url u) = sanitize_url u) ∧
    sanitize_url "https://x/y?a=1#b" = "https://x/y" :=
  ⟨sanitize_url_idem, by decide⟩

/-! Claim C5. -/

def entry_C5 : Property := sample_entry

def unavailable_snapshot_C5 : Property :=
  { sample_entry with listing_type := ListingType.Unavailable, price := "Unavailable" }

def normal_snapshot_C5 : Property :=
  { sample_entry with price := "310000" }

/-- Claim C5 counterexample: an Available entry merged with an Unavailable
snapshot and a normal Available snapshot in the two orders ends with a
different final listing status (the status of whichever snapshot was merged
last). -/
theorem C5_merge_order_counterexample :
    unavailable_snapshot_C5.listing_type = ListingType.Unavailable ∧
    normal_snapshot_C5.listing_type = ListingType.Available ∧
    (merge_properties (merge_properties entry_C5 unavailable_snapshot_C5)
        normal_snapshot_C5).listing_type = ListingType.Available ∧
    (merge_properties (merge_properties entry_C5 normal_snapshot_C5)
        unavailable_snapshot_C5).listing_type = ListingType.Unavailable ∧
    (merge_properties (merge_properties entry_C5 unavailable_snapshot_C5)
        normal_snapshot_C5).listing_type ≠
      (merge_properties (merge_properties entry_C5 normal_snapshot_C5)
        unavailable_snapshot_C5).listing_type := by decide

/-- Claim C5 amended: the merged listing status always equals the fresh
snapshot's listing status (both merge branches copy it), so the final status
after a sequence of merges is the status of the last-merged snapshot and the
two request orders end Available respectively Unavailable — the merge is not
order-invariant for status. -/
theorem C5_status_equals_last_snapshot (existing fresh : Property) :
    (merge_properties existing fresh).listing_type = fresh.listing_type := by
  unfold merge_properties
  split <;> rfl

/-! Claim C4. -/

def entry_C4 : Property := sample_entry

def fresh_C4 : Property :=
  { sample_entry with price := "310000", first_seen := some 50 }

/-- Claim C4: the code keeps the existing `first_seen` outright
(`existing.first_seen.or(property.first_seen)`) even when the fresh
snapshot's `first_seen` is strictly earlier, contradicting the inline code
comment "Keep the earliest first_seen date": at this input the minimum of
the two set values is day 50 but the merge yields day 100. -/
theorem C4_first_seen_not_minimum :
    entry_C4.first_seen = some 100 ∧
    fresh_C4.first_seen = some 50 ∧
    ¬(fresh_C4.listing_type = ListingType.Unavailable ∧
        entry_C4.listing_type ≠ ListingType.Unavailable) ∧
    (merge_properties entry_C4 fresh_C4).first_seen = some 100 ∧
    (merge_properties entry_C4 fresh_C4).first_seen ≠ some (min 100 50) := by decide

/-! Claim C1. -/

def entry_C1_sentinel_price : Property :=
  { sample_entry with price := "Unknown" }

def fresh_C1_unavailable : Property :=
  { sample_entry with listing_type := ListingType.Unavailable, price := "500000" }

/-- Claim C1 counterexample: in a disappearance transition the existing
price is kept unconditionally (the code comment reads "Always preserve
existing price when becoming unavailable"), so an existing sentinel price
"Unknown" is not backfilled from the fresh snapshot's "500000". -/
theorem C1_sentinel_price_not_backfilled :
    entry_C1_sentinel_price.listing_type ≠ ListingType.Unavailable ∧
    fresh_C1_unavailable.listing_type = ListingType.Unavailable ∧
    entry_C1_sentinel_price.price = "Unknown" ∧
    fresh_C1_unavailable.price = "500000" ∧
    (merge_properties entry_C1_sentinel_price fresh_C1_unavailable).price ≠
      fresh_C1_unavailable.price := by decide

/-- Claim C1 amended: on a disappearance transition the merge flips the
listing status to Unavailable and keeps the descriptive fields of the
existing entry, with sentinel backfill from the fresh snapshot only for
name (sentinels "Unknown Property" and "Unavailable Property"), location
(sentinel "Unknown"), property type (Unknown) and the unset optional fields
(date, coordinates, address, sizes); the price is always kept from the
existing entry, even when it is a sentinel; first_seen and last_seen are
kept from the existing entry when set and otherwise taken from the fresh
snapshot. -/
theorem C1_disappearance_preserves_existing (existing fresh : Property)
    (hfresh : fresh.listing_type = ListingType.Unavailable)
    (hex : existing.listing_type ≠ ListingType.Unavailable) :
    (merge_properties existing fresh).listing_type = ListingType.Unavailable ∧
    (merge_properties existing fresh).price = existing.price ∧
    ((existing.name ≠ "Unknown Property" ∧ existing.name ≠ "Unavailable Property") →
      (merge_properties existing fresh).name = existing.name) ∧
    ((existing.name = "Unknown Property" ∨ existing.name = "Unavailable Property") →
      (merge_properties existing fresh).name = fresh.name) ∧
    (existing.location ≠ "Unknown" →
      (merge_properties existing fresh).location = existing.location) ∧
    (existing.location = "Unknown" →
      (merge_properties existing fresh).location = fresh.location) ∧
    (existing.property_type ≠ PropertyType.Unknown →
      (merge_properties existing fresh).property_type = existing.property_type) ∧
    (existing.property_type = PropertyType.Unknown →
      (merge_properties existing fresh).property_type = fresh.property_type) ∧
    (merge_properties existing fresh).date = existing.date.or fresh.date ∧
    (merge_properties existing fresh).coordinates =
      existing.coordinates.or fresh.coordinates ∧
    (merge_properties existing fresh).address = existing.address.or fresh.address ∧
    (merge_properties existing fresh).size_living =
      existing.size_living.or fresh.size_living ∧
    (merge_properties existing fresh).size_ground =
      existing.size_ground.or fresh.size_ground ∧
    (merge_properties existing fresh).first_seen =
      existing.first_seen.or fresh.first_seen ∧
    (merge_properties existing fresh).last_seen =
      existing.last_seen.or fresh.last_seen := by
  have hcond : fresh.listing_type = ListingType.Unavailable ∧
      existing.listing_type ≠ ListingType.Unavailable := ⟨hfresh, hex⟩
  simp only [merge_properties, if_pos hcond]
  refine ⟨hfresh, trivial, ?_, ?_, ?_, ?_, ?_, ?_, trivial, trivial, trivial,
    trivial, trivial, trivial, trivial⟩
  · intro h
    rw [if_pos h]
  · intro h
    rw [if_neg]
    rcases h with h | h <;> simp [h]
  · intro h
    rw [if_pos h]
  · intro h
    rw [if_neg]
    simp [h]
  · intro h
    rw [if_pos h]
  · intro h
    rw [if_neg]
    simp [h]

def entry_C1_witness_input : Property := sample_entry

def fresh_C1_witness_input : Property :=
  { sample_entry with
      listing_type := ListingType.Unavailable
      name := "Unavailable Property"
      price := "Unavailable" }

/-- Concrete instance of the amended C1 theorem. -/
theorem C1_disappearance_witness :
    fresh_C1_witness_input.listing_type = ListingType.Unavailable ∧
    entry_C1_witness_input.listing_type ≠ ListingType.Unavailable ∧
    (merge_properties entry_C1_witness_input fresh_C1_witness_input).price =
      entry_C1_witness_input.price :=
  ⟨rfl, by decide,
    (C1_disappearance_preserves_existing entry_C1_witness_input
      fresh_C1_witness_input rfl (by decide)).2.1⟩

/-! Claim C2. -/

def entry_C2_sentinel_name : Property :=
  { sample_entry with name := "Unknown Property" }

def fresh_C2_empty_name : Property :=
  { sample_entry with name := "", price := "310000" }

/-- Claim C2 counterexample: in a normal update where both sides hold a
sentinel name (existing "Unknown Property", fresh empty), the code keeps the
existing sentinel, while the claim's case split ("... while the existing
value is not, ... otherwise the merged field equals the fresh value")
prescribes the fresh value. -/
theorem C2_both_sentinel_keeps_existing :
    ¬(fresh_C2_empty_name.listing_type = ListingType.Unavailable ∧
        entry_C2_sentinel_name.listing_type ≠ ListingType.Unavailable) ∧
    fresh_C2_empty_name.name = "" ∧
    entry_C2_sentinel_name.name = "Unknown Property" ∧
    (merge_properties entry_C2_sentinel_name fresh_C2_empty_name).name ≠
      fresh_C2_empty_name.name := by decide

/-- Claim C2 amended: for every normal (non-disappearance) merge, each
descriptive string field takes the existing value whenever the fresh value
is empty or a known sentinel (regardless of whether the existing value is
itself a sentinel), and the fresh value otherwise; the property type takes
the existing value exactly when the fresh one is Unknown; the optional
fields take the fresh value when set, else the existing one; the merged
listing status always equals the fresh snapshot's; first_seen keeps the
existing value when set and last_seen takes the fresh value when set. -/
theorem C2_normal_update_field_precedence (existing fresh : Property)
    (hnormal : ¬(fresh.listing_type = ListingType.Unavailable ∧
        existing.listing_type ≠ ListingType.Unavailable)) :
    (merge_properties existing fresh).listing_type = fresh.listing_type ∧
    ((fresh.name = "" ∨ fresh.name = "Unknown Property" ∨
        fresh.name = "Unavailable Property") →
      (merge_properties existing fresh).name = existing.name) ∧
    (¬(fresh.name = "" ∨ fresh.name = "Unknown Property" ∨
        fresh.name = "Unavailable Property") →
      (merge_properties existing fresh).name = fresh.name) ∧
    ((fresh.price = "" ∨ fresh.price = "Unknown" ∨ fresh.price = "Unavailable") →
      (merge_properties existing fresh).price = existing.price) ∧
    (¬(fresh.price = "" ∨ fresh.price = "Unknown" ∨ fresh.price = "Unavailable") →
      (merge_properties existing fresh).price = fresh.price) ∧
    ((fresh.location = "" ∨ fresh.location = "Unknown") →
      (merge_properties existing fresh).location = existing.location) ∧
    (¬(fresh.location = "" ∨ fresh.location = "Unknown") →
      (merge_properties existing fresh).location = fresh.location) ∧
    (fresh.property_type = PropertyType.Unknown →
      (merge_properties existing fresh).property_type = existing.property_type) ∧
    (fresh.property_type ≠ PropertyType.Unknown →
      (merge_properties existing fresh).property_type = fresh.property_type) ∧
    (merge_properties existing fresh).date = fresh.date.or existing.date ∧
    (merge_properties existing fresh).coordinates =
      fresh.coordinates.or existing.coordinates ∧
    (merge_properties existing fresh).address = fresh.address.or existing.address ∧
    (merge_properties existing fresh).size_living =
      fresh.size_living.or existing.size_living ∧
    (merge_properties existing fresh).size_ground =
      fresh.size_ground.or existing.size_ground ∧
    (merge_properties existing fresh).first_seen =
      existing.first_seen.or fresh.first_seen ∧
    (merge_properties existing fresh).last_seen =
      fresh.last_seen.or existing.last_seen := by
  simp only [merge_properties, if_neg hnormal]
  refine ⟨trivial, ?_, ?_, ?_, ?_, ?_, ?_, ?_, ?_, trivial, trivial, trivial,
    trivial, trivial, trivial, trivial⟩
  · intro h
    rw [if_pos h]
  · intro h
    rw [if_neg h]
  · intro h
    rw [if_pos h]
  · intro h
    rw [if_neg h]
  · intro h
    rw [if_pos h]
  · intro h
    rw [if_neg h]
  · intro h
    rw [if_pos h]
  · intro h
    rw [if_neg h]

def entry_C2_witness_input : Property := sample_entry

def fresh_C2_witness_input : Property :=
  { sample_entry with
      price := ""
      listing_type := ListingType.Sold }

/-- Concrete instance of the amended C2 theorem: a fresh empty price does
not overwrite the existing price and the status change to Sold is taken. -/
theorem C2_normal_update_witness :
    ¬(fresh_C2_witness_input.listing_type = ListingType.Unavailable ∧
        entry_C2_witness_input.listing_type ≠ ListingType.Unavailable) ∧
    (merge_properties entry_C2_witness_input fresh_C2_witness_input).listing_type =
      fresh_C2_witness_input.listing_type ∧
    (merge_properties entry_C2_witness_input fresh_C2_witness_input).price =
      entry_C2_witness_input.price :=
  ⟨by decide,
    (C2_normal_update_field_precedence entry_C2_witness_input
      fresh_C2_witness_input (by decide)).1,
    (C2_normal_update_field_precedence entry_C2_witness_input
      fresh_C2_witness_input (by decide)).2.2.2.1 (Or.inl rfl)⟩

/-! Claim C7. -/

def stored_row_plain : Property :=
  { sample_entry with url := "https://x/y" }

def stored_row_tracking : Property :=
  { sample_entry with url := "https://x/y?utm=1" }

/-- Claim C7 counterexample: loading two stored rows whose urls differ only
by a ?utm=1 query string yields a catalog with two entries (both with the
same canonical url), not exactly one entry — the load sanitizes urls but
does not collapse duplicates. -/
theorem C7_load_keeps_both_rows :
    sanitize_url stored_row_plain.url = sanitize_url stored_row_tracking.url ∧
    (load_properties_from_csv [stored_row_plain, stored_row_tracking]).length = 2 ∧
    (∀ p ∈ load_properties_from_csv [stored_row_plain, stored_row_tracking],
      p.url = "https://x/y") := by decide

/-- Claim C7 amended: loading a persisted catalog canonicalizes every url
(query string and fragment stripped), so two rows differing only there end
up with equal, canonical urls; but the load itself keeps one entry per
stored row (the collapse to a single entry per identifier is performed by
the separate deduplication step, not by the load). -/
theorem C7_load_canonicalizes_without_collapsing (rows : List Property) :
    (load_properties_from_csv rows).length = rows.length ∧
    (load_properties_from_csv rows).map Property.url =
      rows.map (fun p => sanitize_url p.url) ∧
    ∀ p ∈ load_properties_from_csv rows, sanitize_url p.url = p.url := by
  refine ⟨by simp [load_properties_from_csv], ?_, ?_⟩
  · unfold load_properties_from_csv
    rw [List.map_map]
    rfl
  intro p hp
  rw [load_properties_from_csv, List.mem_map] at hp
  obtain ⟨q, _, rfl⟩ := hp
  exact sanitize_url_idem q.url

def loaded_row_tracking : Property :=
  { stored_row_tracking with url := sanitize_url stored_row_tracking.url }

/-- Concrete instance of the amended C7 theorem at the scenario input. -/
theorem C7_load_canonicalizes_witness :
    (load_properties_from_csv [stored_row_plain, stored_row_tracking]).length = 2 ∧
    sanitize_url loaded_row_tracking.url = loaded_row_tracking.url :=
  ⟨(C7_load_canonicalizes_without_collapsing [stored_row_plain, stored_row_tracking]).1,
    (C7_load_canonicalizes_without_collapsing
        [stored_row_plain, stored_row_tracking]).2.2 loaded_row_tracking (by decide)⟩

/-! Claim C10. -/

/-- Claim C10: decoding a persisted row whose coordinates field is non-empty
but malformed — not exactly two comma-separated parts, or a part on which
the numeric parser fails — succeeds, and yields the same record as decoding
the row with an empty coordinates field: coordinates absent, with neither
the row nor the load failing. -/
theorem C10_malformed_coordinates_decode_to_none
    (parse_f64 : String → Option Rat) (helper : PropertyHelper)
    (hne : helper.coordinates ≠ "")
    (hbad : (split_on_comma helper.coordinates).length ≠ 2 ∨
      ∃ part ∈ split_on_comma helper.coordinates, parse_f64 part = none) :
    property_deserialize parse_f64 helper =
      property_deserialize parse_f64 { helper with coordinates := "" } ∧
    ∃ row, property_deserialize parse_f64 helper = Except.ok row ∧
      row.coordinates = none := by
  have hnone : parse_coordinates parse_f64 helper.coordinates = none := by
    unfold parse_coordinates
    rw [if_neg hne]
    rcases hsp : split_on_comma helper.coordinates with _ | ⟨a, _ | ⟨b, _ | ⟨c, rest⟩⟩⟩
    · rfl
    · rfl
    · rw [hsp] at hbad
      rcases hbad with hlen | ⟨part, hmem, hpn⟩
      · simp at hlen
      · simp only [List.mem_cons, List.not_mem_nil, or_false] at hmem
        rcases hA : parse_f64 a with _ | va
        · simp [hA]
        · rcases hB : parse_f64 b with _ | vb
          · simp [hA, hB]
          · rcases hmem with h | h
            · rw [h] at hpn
              simp [hpn] at hA
            · rw [h] at hpn
              simp [hpn] at hB
    · rfl
  have hempty : parse_coordinates parse_f64 "" = none := rfl
  constructor
  · unfold property_deserialize
    rw [hnone]
    rw [show ({ helper with coordinates := "" } : PropertyHelper).coordinates = "" from rfl,
      hempty]
  · exact ⟨_, rfl, hnone⟩

def helper_C10 : PropertyHelper :=
  { url := "https://x/y"
    price := "300000"
    location := "Bregenz"
    property_type := PropertyType.House
    listing_type := ListingType.Available
    date := none
    coordinates := "1,2,3"
    address := none
    size_living := none
    size_ground := none }

/-- Concrete instance of the C10 theorem: a three-part coordinates string
decodes to an absent coordinate pair without failing the row. -/
theorem C10_malformed_coordinates_witness :
    helper_C10.coordinates ≠ "" ∧
    (split_on_comma helper_C10.coordinates).length ≠ 2 ∧
    ∃ row, property_deserialize (fun _ => none) helper_C10 = Except.ok row ∧
      row.coordinates = none :=
  ⟨by decide, by decide,
    (C10_malformed_coordinates_decode_to_none (fun _ => none) helper_C10
      (by decide) (Or.inl (by decide))).2⟩

/-! Claim C3. -/

/-- Both merge branches take the fresh snapshot's url. -/
theorem merge_properties_url (existing fresh : Property) :
    (merge_properties existing fresh).url = fresh.url := by
  unfold merge_properties
  split <;> rfl

/-- Merging a snapshot into the first entry with its url leaves the url
sequence of the accumulator unchanged. -/
theorem merge_into_map_url (p : Property) (result : List Property) :
    (merge_into result p).map Property.url = result.map Property.url := by
  induction result with
  | nil => rfl
  | cons q rest ih =>
    unfold merge_into
    by_cases h : q.url = p.url
    · rw [if_pos h]
      simp only [List.map_cons, merge_properties_url, h]
    · rw [if_neg h]
      simp only [List.map_cons, ih]

/-- The deduplication loop keeps the accumulator's urls pairwise distinct. -/
theorem dedup_go_map_url_nodup (l : List Property) : ∀ result : List Property,
    (result.map Property.url).Nodup → ((dedup_go result l).map Property.url).Nodup := by
  induction l with
  | nil =>
    intro result h
    exact h
  | cons p rest ih =>
    intro result h
    unfold dedup_go
    by_cases hc : ∀ q ∈ result, q.url ≠ p.url
    · rw [if_pos hc]
      apply ih
      have hp : p.url ∉ result.map Property.url := by
        intro hmem
        obtain ⟨q, hq, hequ⟩ := List.mem_map.mp hmem
        exact hc q hq hequ
      simp [List.nodup_append, h, hp]
    · rw [if_neg hc]
      exact ih _ (by rw [merge_into_map_url]; exact h)

/-- On a list whose urls are pairwise distinct and disjoint from the
accumulator, the deduplication loop only appends. -/
theorem dedup_go_append_of_disjoint (l : List Property) : ∀ result : List Property,
    (∀ p ∈ l, ∀ q ∈ result, q.url ≠ p.url) → (l.map Property.url).Nodup →
    dedup_go result l = result ++ l := by
  induction l with
  | nil =>
    intro result _ _
    simp [dedup_go]
  | cons p rest ih =>
    intro result hdisj hnd
    have hnd2 : (p.url ∉ rest.map Property.url) ∧ (rest.map Property.url).Nodup :=
      List.nodup_cons.mp (by simpa using hnd)
    have h1 : ∀ p2 ∈ rest, ∀ q ∈ result ++ [p], q.url ≠ p2.url := by
      intro p2 hp2 q hq
      rcases List.mem_append.mp hq with hq | hq
      · exact hdisj p2 (List.mem_cons_of_mem p hp2) q hq
      · have hqp : q = p := by simpa using hq
        subst hqp
        intro hcontra
        exact hnd2.1 (hcontra ▸ List.mem_map_of_mem Property.url hp2)
    unfold dedup_go
    rw [if_pos (hdisj p (List.mem_cons_self p rest)), ih (result ++ [p]) h1 hnd2.2]
    simp

/-- Claim C3: deduplication is idempotent — deduplicating an
already-deduplicated catalog changes nothing, for every input catalog. -/
theorem C3_deduplicate_idempotent (properties : List Property) :
    deduplicate_properties_by_url (deduplicate_properties_by_url properties) =
      deduplicate_properties_by_url properties := by
  have hnd : ((deduplicate_properties_by_url properties).map Property.url).Nodup :=
    dedup_go_map_url_nodup properties [] (by simp)
  have hap := dedup_go_append_of_disjoint (deduplicate_properties_by_url properties) []
    (by intro p _ q hq; simp at hq) hnd
  simpa [deduplicate_properties_by_url] using hap

/-! Claim C8. -/

/-- A url is present in the loop's output iff it is present in the
accumulator or in the remaining input. -/
theorem dedup_go_mem_url (l : List Property) : ∀ (result : List Property) (u : String),
    u ∈ (dedup_go result l).map Property.url ↔
      u ∈ result.map Property.url ∨ u ∈ l.map Property.url := by
  induction l with
  | nil =>
    intro result u
    simp [dedup_go]
  | cons p rest ih =>
    intro result u
    unfold dedup_go
    by_cases hc : ∀ q ∈ result, q.url ≠ p.url
    · rw [if_pos hc, ih]
      simp only [List.map_append, List.map_cons, List.mem_append, List.mem_cons,
        List.map_nil, List.mem_singleton]
      tauto
    · rw [if_neg hc, ih, merge_into_map_url]
      push_neg at hc
      obtain ⟨q, hq, hequ⟩ := hc
      simp only [List.map_cons, List.mem_cons]
      constructor
      · tauto
      · rintro (h | h | h)
        · exact Or.inl h
        · subst h
          exact Or.inl (hequ ▸ List.mem_map_of_mem Property.url hq)
        · exact Or.inr h

/-- Merging a snapshot whose url is not u leaves the entries with url u
untouched. -/
theorem merge_into_filter_ne (u : String) (p : Property) (hne : p.url ≠ u)
    (result : List Property) :
    (merge_into result p).filter (fun q => q.url = u) =
      result.filter (fun q => q.url = u) := by
  induction result with
  | nil => rfl
  | cons r rest ih =>
    unfold merge_into
    by_cases h : r.url = p.url
    · rw [if_pos h]
      have hru : ¬(r.url = u) := by rw [h]; exact hne
      have hmu : ¬((merge_properties r p).url = u) := by rw [merge_properties_url]; exact hne
      simp [List.filter_cons, hru, hmu]
    · rw [if_neg h]
      by_cases hr : r.url = u
      · simp [List.filter_cons, hr, ih]
      · simp [List.filter_cons, hr, ih]

/-- If the url u occurs in exactly one entry p — either already alone in the
accumulator with no further occurrence in the input, or not yet in the
accumulator and exactly once in the input — the loop's output holds exactly
that entry for u, unchanged. -/
theorem dedup_go_filter_unique (u : String) (l : List Property) :
    ∀ (result : List Property) (p : Property),
    (result.filter (fun q => q.url = u) = [p] ∧
        l.filter (fun q => q.url = u) = [] ∨
      result.filter (fun q => q.url = u) = [] ∧
        l.filter (fun q => q.url = u) = [p]) →
    (dedup_go result l).filter (fun q => q.url = u) = [p] := by
  induction l with
  | nil =>
    intro result p h
    rcases h with ⟨h1, _⟩ | ⟨_, h2⟩
    · exact h1
    · simp at h2
  | cons x rest ih =>
    intro result p h
    unfold dedup_go
    by_cases hxu : x.url = u
    · rcases h with ⟨h1, h2⟩ | ⟨h1, h2⟩
      · exfalso
        have hx : x ∈ (x :: rest).filter (fun q => q.url = u) :=
          List.mem_filter.mpr ⟨List.mem_cons_self x rest, by simp [hxu]⟩
        rw [h2] at hx
        simp at hx
      · have hxf : (x :: rest).filter (fun q => q.url = u) =
            x :: rest.filter (fun q => q.url = u) := by
          simp [List.filter_cons, hxu]
        rw [hxf] at h2
        injection h2 with hxp hrest
        have hres : ∀ q ∈ result, q.url ≠ x.url := by
          intro q hq
          rw [hxu]
          intro hcontra
          have hmem : q ∈ result.filter (fun q => q.url = u) :=
            List.mem_filter.mpr ⟨hq, by simp [hcontra]⟩
          rw [h1] at hmem
          simp at hmem
        rw [if_pos hres]
        apply ih
        left
        refine ⟨?_, hrest⟩
        subst hxp
        simp [List.filter_append, h1, List.filter_cons, hxu]
    · have hxfilter : (x :: rest).filter (fun q => q.url = u) =
          rest.filter (fun q => q.url = u) := by
        simp [List.filter_cons, hxu]
      rw [hxfilter] at h
      by_cases hc : ∀ q ∈ result, q.url ≠ x.url
      · rw [if_pos hc]
        apply ih
        rcases h with ⟨h1, h2⟩ | ⟨h1, h2⟩
        · exact Or.inl ⟨by simp [List.filter_append, h1, List.filter_cons, hxu], h2⟩
        · exact Or.inr ⟨by simp [List.filter_append, h1, List.filter_cons, hxu], h2⟩
      · rw [if_neg hc]
        apply ih
        rw [merge_into_filter_ne u x hxu result]
        exact h

/-- Claim C8: deduplication never loses an identifier — every url of the
input catalog occurs in the output — and for a url occurring in exactly one
input entry, the output holds exactly that entry, unchanged; no entry is
deleted by reconciliation. -/
theorem C8_dedup_loses_no_identifier (properties : List Property) :
    (∀ p ∈ properties,
      ∃ q ∈ deduplicate_properties_by_url properties, q.url = p.url) ∧
    (∀ (u : String) (p : Property),
      properties.filter (fun q => q.url = u) = [p] →
      (deduplicate_properties_by_url properties).filter
        (fun q => q.url = u) = [p]) := by
  constructor
  · intro p hp
    have hmem : p.url ∈ (deduplicate_properties_by_url properties).map Property.url :=
      (dedup_go_mem_url properties [] p.url).mpr
        (Or.inr (List.mem_map_of_mem Property.url hp))
    obtain ⟨q, hq, hequ⟩ := List.mem_map.mp hmem
    exact ⟨q, hq, hequ⟩
  · intro u p hone
    exact dedup_go_filter_unique u properties [] p (Or.inr ⟨rfl, hone⟩)

def entry_C8_first : Property := sample_entry

def entry_C8_first_again : Property :=
  { sample_entry with price := "310000" }

def entry_C8_second : Property :=
  { sample_entry with url := "https://site/b" }

def catalog_C8 : List Property :=
  [entry_C8_first, entry_C8_first_again, entry_C8_second]

/-- Concrete instance of the C8 theorem: in a catalog with a duplicated
first url, the once-occurring second url keeps its entry unchanged through
deduplication. -/
theorem C8_dedup_loses_no_identifier_witness :
    catalog_C8.filter (fun q => q.url = "https://site/b") = [entry_C8_second] ∧
    (deduplicate_properties_by_url catalog_C8).filter
      (fun q => q.url = "https://site/b") = [entry_C8_second] :=
  ⟨by decide,
    (C8_dedup_loses_no_identifier catalog_C8).2 "https://site/b" entry_C8_second
      (by decide)⟩

/-! Claim C6. -/

/-- The optional-date order is total. -/
theorem option_date_le_total (a b : Option Date) :
    (option_date_le a b || option_date_le b a) = true := by
  rcases a with _ | x <;> rcases b with _ | y
  · rfl
  · rfl
  · rfl
  · show (decide (x ≤ y) || decide (y ≤ x)) = true
    simp only [Bool.or_eq_true, decide_eq_true_eq]
    exact Int.le_total x y

/-- The optional-date order is transitive. -/
theorem option_date_le_trans {a b c : Option Date}
    (h1 : option_date_le a b = true) (h2 : option_date_le b c = true) :
    option_date_le a c = true := by
  rcases a with _ | x
  · rfl
  · rcases b with _ | y
    · exact absurd h1 (by simp [option_date_le])
    · rcases c with _ | z
      · exact absurd h2 (by simp [option_date_le])
      · have hxy : x ≤ y := by simpa [option_date_le] using h1
        have hyz : y ≤ z := by simpa [option_date_le] using h2
        simpa [option_date_le] using le_trans hxy hyz

/-- The refresh comparator is total. -/
theorem refresh_le_total (a b : Property) : (refresh_le a b || refresh_le b a) = true := by
  unfold refresh_le
  rcases hda : a.date with _ | x <;> rcases hdb : b.date with _ | y
  · exact option_date_le_total a.first_seen b.first_seen
  · rfl
  · rfl
  · simp only [Bool.or_eq_true, decide_eq_true_eq]
    exact Int.le_total x y

/-- The refresh comparator is transitive. -/
theorem refresh_le_trans (a b c : Property)
    (h1 : refresh_le a b = true) (h2 : refresh_le b c = true) :
    refresh_le a c = true := by
  unfold refresh_le at h1 h2 ⊢
  rcases hda : a.date with _ | x <;> rcases hdb : b.date with _ | y <;>
      rcases hdc : c.date with _ | z <;>
      rw [hda, hdb] at h1 <;> rw [hdb, hdc] at h2
  all_goals first
    | exact option_date_le_trans h1 h2
    | rfl
    | exact Bool.noConfusion h1
    | exact Bool.noConfusion h2
    | exact decide_eq_true (le_trans (of_decide_eq_true h1) (of_decide_eq_true h2))

/-- Unfolding of the refresh filter predicate. -/
theorem refresh_keep_iff (base_url : String) (cutoff : Date) (x : Property) :
    refresh_keep base_url cutoff x = true ↔
      str_contains_sub x.url base_url = true ∧
      x.listing_type = ListingType.Available ∧
      (x.last_seen = none ∨ ∃ t, x.last_seen = some t ∧ t ≤ cutoff) := by
  unfold refresh_keep
  rcases hl : x.last_seen with _ | t <;>
    simp [Bool.and_eq_true, decide_eq_true_eq, hl, and_assoc]

/-- Claim C6: in refresh-by-age mode with threshold d (clamped to at least
one day), the selected candidates are exactly the catalog entries whose url
contains the scraper's base url, whose listing status is Available and whose
last_seen is missing or at least d days before today; they are ordered by
the refresh comparator — entries without a listing date first (among
themselves by first_seen), then dated entries oldest first — and the
scheduled url frontier is their url projection. -/
theorem C6_refresh_by_age_frontier (base_url : String) (today : Date)
    (refresh_days : Nat) (all_properties : List Property) :
    (∀ p, p ∈ refresh_candidates base_url today refresh_days all_properties ↔
        p ∈ all_properties ∧
        str_contains_sub p.url base_url = true ∧
        p.listing_type = ListingType.Available ∧
        (p.last_seen = none ∨
          ∃ t, p.last_seen = some t ∧ t ≤ today - (max refresh_days 1 : Nat))) ∧
    List.Pairwise (fun a b => refresh_le a b = true)
      (refresh_candidates base_url today refresh_days all_properties) ∧
    refresh_urls base_url today refresh_days all_properties =
      (refresh_candidates base_url today refresh_days all_properties).map
        Property.url := by
  refine ⟨?_, ?_, rfl⟩
  · intro p
    unfold refresh_candidates
    rw [(List.mergeSort_perm _ refresh_le).mem_iff, List.mem_filter, refresh_keep_iff]
  · exact List.sorted_mergeSort refresh_le_trans refresh_le_total _

def entry_C6_old : Property :=
  { sample_entry with
      url := "https://origin/x1"
      date := none
      first_seen := some (-30)
      last_seen := some (-10) }

def entry_C6_recent : Property :=
  { sample_entry with
      url := "https://origin/x2"
      date := none
      first_seen := some (-20)
      last_seen := some (-2) }

/-- Concrete instance of the C6 theorem at the spec's scenario: threshold 7
days, today = day 0; the Available entry last seen 10 days ago is selected
and the one last seen 2 days ago is not. -/
theorem C6_refresh_by_age_witness :
    entry_C6_old ∈ refresh_candidates "origin" 0 7 [entry_C6_old, entry_C6_recent] ∧
    ¬(entry_C6_recent ∈
        refresh_candidates "origin" 0 7 [entry_C6_old, entry_C6_recent]) := by
  have hiff := (C6_refresh_by_age_frontier "origin" 0 7
    [entry_C6_old, entry_C6_recent]).1
  constructor
  · exact (hiff entry_C6_old).mpr
      ⟨by decide, by decide, by decide, Or.inr ⟨-10, rfl, by decide⟩⟩
  · intro hmem
    rcases ((hiff entry_C6_recent).mp hmem).2.2.2 with hnone | ⟨t, ht, hle⟩
    · exact absurd hnone (by decide)
    · have ht2 : some (-2 : Int) = some t := ht
      injection ht2 with ht3
      rw [← ht3] at hle
      exact absurd hle (by decide)

end Laendle
